import Mathlib

/-!
Shallow embedding of the sylar-style coroutine library (timer manager,
scheduler, I/O manager, fd manager, fiber, hooked `do_io` pattern) and
proofs about it.  Times are modelled in milliseconds as `Nat`; callbacks,
fibers and schedulers are modelled by opaque numeric identifiers wrapped
in `Option` (`none` models a null pointer / empty `std::function`).
-/

namespace sylar

/-- Model of `~0ull`, the 64-bit all-ones sentinel. -/
def U64MAX : Nat := 2 ^ 64 - 1

/-- Linux errno constant EINTR. -/
def EINTR : Int := 4

/-- Linux errno constant EAGAIN. -/
def EAGAIN : Int := 11

/-- Linux errno constant EBADF. -/
def EBADF : Int := 9

/-- Linux errno constant ETIMEDOUT. -/
def ETIMEDOUT : Int := 110

/-- Socket option constant SO_RCVTIMEO. -/
def SO_RCVTIMEO : Int := 20

/-- Socket option constant SO_SNDTIMEO. -/
def SO_SNDTIMEO : Int := 21

/-- Model of a `Timer` object (timer.h:29-50).  `tid` models the object
identity (the address held by the `shared_ptr`); `m_cb` is `none` when the
callback has been cleared (`nullptr`). -/
structure Timer where
  tid : Nat
  m_recurring : Bool
  m_ms : Nat
  m_next : Nat
  m_cb : Option Nat
deriving Repr, DecidableEq

/-- Model of `Timer::Comparator::operator()` (timer.cpp:94-98): it compares
the two timers by `m_next` only. -/
def timerLt (lhs rhs : Timer) : Bool :=
  decide (lhs.m_next < rhs.m_next)

/-- Model of `std::set::insert` for a set ordered by the strict weak order
`lt`: the set is a sorted list; an element equivalent to an existing one
(neither `lt x t` nor `lt t x`) is NOT inserted and the set is unchanged,
exactly as `std::set` behaves. -/
def setInsert (lt : Timer → Timer → Bool) : List Timer → Timer → List Timer
  | [], t => [t]
  | x :: xs, t =>
    if lt t x then t :: x :: xs
    else if lt x t then x :: setInsert lt xs t
    else x :: xs

/-- Model of the `TimerManager` state (timer.h:85-99). -/
structure TimerManagerState where
  m_timers : List Timer
  m_tickled : Bool
  m_previouseTime : Nat
deriving Repr, DecidableEq

/-- Model of `TimerManager::detectClockRollover` (timer.cpp:239-251):
rollover holds when `now < m_previouseTime - 1h`; it always updates
`m_previouseTime` to `now`.  Over integer time the comparison
`now < prev - 3600000` is `now + 3600000 < prev`. -/
def detectClockRollover (s : TimerManagerState) (now : Nat) :
    Bool × TimerManagerState :=
  (decide (now + 60 * 60 * 1000 < s.m_previouseTime),
   { s with m_previouseTime := now })

/-- Model of `TimerManager::getNextTimer` (timer.cpp:139-169): clears
`m_tickled`; returns `~0ull` if the set is empty, `0` if the earliest
deadline is already due (`now >= time`), else the milliseconds until the
earliest deadline. -/
def getNextTimer (s : TimerManagerState) (now : Nat) :
    Nat × TimerManagerState :=
  let s1 := { s with m_tickled := false }
  match s.m_timers with
  | [] => (U64MAX, s1)
  | t :: _ =>
    if t.m_next ≤ now then (0, s1)
    else (t.m_next - now, s1)

/-- Model of the while loop of `TimerManager::listExpiredCb`
(timer.cpp:183-202), with explicit fuel.  The guard is
`!m_timers.empty() && rollover || !m_timers.empty() && front.m_next <= now`.
Each iteration pops the first timer, appends its callback to `cbs` and, if
the timer is recurring, reinserts it with `m_next := now + m_ms`
(one-shot timers just have their callback cleared on the popped object,
which is no longer in the set).  Returns `none` when the fuel runs out
while the guard still holds, i.e. the loop has not terminated within
`fuel` iterations. -/
def listExpiredLoop (now : Nat) (rollover : Bool) :
    Nat → List Timer → List (Option Nat) → Option (List Timer × List (Option Nat))
  | fuel, timers, cbs =>
    match timers with
    | [] => some ([], cbs)
    | t :: rest =>
      if rollover || decide (t.m_next ≤ now) then
        match fuel with
        | 0 => none
        | fuel + 1 =>
          let cbs1 := cbs ++ [t.m_cb]
          if t.m_recurring then
            listExpiredLoop now rollover fuel
              (setInsert timerLt rest { t with m_next := now + t.m_ms }) cbs1
          else
            listExpiredLoop now rollover fuel rest cbs1
      else some (timers, cbs)

/-- Model of `TimerManager::listExpiredCb` (timer.cpp:172-203): detect the
clock rollover, then run the collection loop.  `none` means the loop did
not terminate within `fuel` iterations. -/
def listExpiredCb (s : TimerManagerState) (now : Nat) (fuel : Nat) :
    Option (TimerManagerState × List (Option Nat)) :=
  let r := detectClockRollover s now
  match listExpiredLoop now r.1 fuel r.2.m_timers [] with
  | none => none
  | some (timers1, cbs) => some ({ r.2 with m_timers := timers1 }, cbs)

/-- Model of `Fiber::State` (fiber.h:19-24). -/
inductive FiberState
  | READY
  | RUNNING
  | TERM
deriving Repr, DecidableEq

/-- Model of the data of a `Fiber` object (fiber.h:63-77). -/
structure FiberModel where
  m_id : Nat
  m_stacksize : Nat
  m_state : FiberState
  m_cb : Option Nat
  m_runInScheduler : Bool
deriving Repr, DecidableEq

/-- Model of the child-fiber constructor
`Fiber::Fiber(cb, stacksize, run_in_scheduler)` (fiber.cpp:97-125):
state `READY`, stack size `stacksize ? stacksize : 128000` (fiber.cpp:103,
the size handed to `malloc` for the private stack), the given callback and
scheduler flag, and the next id from the global counter. -/
def mkChildFiber (cb : Nat) (stacksize : Nat) (run_in_scheduler : Bool)
    (id : Nat) : FiberModel :=
  { m_id := id
    m_stacksize := if stacksize ≠ 0 then stacksize else 128000
    m_state := FiberState.READY
    m_cb := some cb
    m_runInScheduler := run_in_scheduler }

/-- Model of `Scheduler::ScheduleTask` (scheduler.h:118-161): at most one of
fiber / callback, plus a target thread id (−1 means any). -/
structure ScheduleTask where
  fiber : Option Nat
  cb : Option Nat
  thread : Int
deriving Repr, DecidableEq

/-- Model of the scheduler state relevant to `Scheduler::stopping`
(scheduler.h:163-193). -/
structure SchedulerState where
  m_tasks : List ScheduleTask
  m_activeThreadCount : Nat
  m_idleThreadCount : Nat
  m_stopping : Bool
deriving Repr, DecidableEq

/-- Model of `Scheduler::stopping` (scheduler.cpp:278-282):
`m_stopping && m_tasks.empty() && m_activeThreadCount == 0`. -/
def Scheduler.stopping (s : SchedulerState) : Bool :=
  s.m_stopping && s.m_tasks.isEmpty && decide (s.m_activeThreadCount = 0)

/-- Event bit NONE (ioscheduler.h:17). -/
def NONE : Nat := 0x0

/-- Event bit READ = EPOLLIN (ioscheduler.h:20). -/
def READ : Nat := 0x1

/-- Event bit WRITE = EPOLLOUT (ioscheduler.h:22). -/
def WRITE : Nat := 0x4

/-- Model of `IOManager::FdContext::EventContext` (ioscheduler.h:28-37):
the (scheduler, fiber, callback) triple, each possibly null. -/
structure EventContext where
  scheduler : Option Nat
  fiber : Option Nat
  cb : Option Nat
deriving Repr, DecidableEq

/-- Model of `IOManager::FdContext::resetEventContext` (ioscheduler.cpp:32-37):
null the scheduler, the fiber and the callback. -/
def resetEventContext (_ctx : EventContext) : EventContext :=
  { scheduler := none, fiber := none, cb := none }

/-- Model of `IOManager::FdContext` (ioscheduler.h:26-51): read and write
event slots, the fd, and the registered events bitmask. -/
structure FdContext where
  read : EventContext
  write : EventContext
  fd : Nat
  events : Nat
deriving Repr, DecidableEq

/-- Model of `IOManager::FdContext::getEventContext` (ioscheduler.cpp:18-29):
READ selects the read slot, WRITE the write slot (asserted to be one of the
two). -/
def FdContext.getEventContext (f : FdContext) (event : Nat) : EventContext :=
  if event = READ then f.read else f.write

/-- Writing back the slot selected by `getEventContext`: the source mutates
the returned reference, which this functional model expresses as a record
update. -/
def FdContext.setEventContext (f : FdContext) (event : Nat)
    (c : EventContext) : FdContext :=
  if event = READ then { f with read := c } else { f with write := c }

/-- Fresh `FdContext` as built inside `contextResize` (ioscheduler.cpp:130-134):
empty slots, `fd = i`, no registered events. -/
def newFdContext (i : Nat) : FdContext :=
  { read := { scheduler := none, fiber := none, cb := none }
    write := { scheduler := none, fiber := none, cb := none }
    fd := i
    events := NONE }

/-- Model of `IOManager::contextResize` (ioscheduler.cpp:123-136):
`m_fdContexts.resize(size)` (truncate or extend with null) followed by a
pass that replaces every null slot by a fresh `FdContext` with `fd = i`;
the surviving prefix keeps its existing contexts. -/
def contextResize (l : List FdContext) (size : Nat) : List FdContext :=
  l.take size ++ ((List.range size).drop l.length).map newFdContext

/-- Combined state of an `IOManager` (ioscheduler.h:87-94 plus the
inherited `Scheduler` and `TimerManager` state). -/
structure IOManagerState where
  sched : SchedulerState
  timerMgr : TimerManagerState
  m_pendingEventCount : Nat
  m_fdContexts : List FdContext
deriving Repr, DecidableEq

/-- The event-context slot written by `addEvent` (ioscheduler.cpp:190-205):
the scheduler is `Scheduler::GetThis()`; with a callback the slot keeps the
callback, otherwise it keeps the currently running fiber. -/
def mkEventContext (cb : Option Nat) (curScheduler curFiber : Option Nat) :
    EventContext :=
  match cb with
  | some c => { scheduler := curScheduler, fiber := none, cb := some c }
  | none => { scheduler := curScheduler, fiber := curFiber, cb := none }

/-- Model of `IOManager::addEvent` (ioscheduler.cpp:139-207).  `epollOk`
models the success of the `epoll_ctl` call, `curScheduler` and `curFiber`
model `Scheduler::GetThis()` and `Fiber::GetThis()`.  The source's
`assert`s (empty slot, RUNNING fiber) are compiled out as under `NDEBUG`;
theorems carry them as hypotheses.  The pending-event counter is a 64-bit
atomic, modelled with explicit wrap-around.  The impossible case of an
out-of-range access after `contextResize` is mapped to failure. -/
def addEvent (s : IOManagerState) (fd event : Nat) (cb : Option Nat)
    (epollOk : Bool) (curScheduler : Option Nat) (curFiber : Option Nat) :
    Int × IOManagerState :=
  let s :=
    if fd < s.m_fdContexts.length then s
    else { s with m_fdContexts := contextResize s.m_fdContexts (3 * fd / 2) }
  match s.m_fdContexts[fd]? with
  | none => (-1, s)
  | some fd_ctx =>
    if fd_ctx.events &&& event ≠ 0 then (-1, s)
    else if epollOk = false then (-1, s)
    else
      let fd_ctx1 :=
        FdContext.setEventContext
          { fd_ctx with events := fd_ctx.events ||| event } event
          (mkEventContext cb curScheduler curFiber)
      (0, { s with
              m_fdContexts := s.m_fdContexts.set fd fd_ctx1
              m_pendingEventCount := (s.m_pendingEventCount + 1) % 2 ^ 64 })

/-- Model of `IOManager::delEvent` (ioscheduler.cpp:210-261).  Out-of-range
fd or absent event bit return false with no change; a failed `epoll_ctl`
makes the source `return -1`, which converts to `true` in the `bool`
return type, with no state change.  Otherwise the pending count is
decremented, the bit cleared (`events & ~event` on a 32-bit mask) and the
slot reset. -/
def delEvent (s : IOManagerState) (fd event : Nat) (epollOk : Bool) :
    Bool × IOManagerState :=
  match s.m_fdContexts[fd]? with
  | none => (false, s)
  | some fd_ctx =>
    if fd_ctx.events &&& event = 0 then (false, s)
    else if epollOk = false then (true, s)
    else
      let new_events := fd_ctx.events &&& (0xFFFFFFFF ^^^ event)
      let fd_ctx1 :=
        FdContext.setEventContext { fd_ctx with events := new_events } event
          (resetEventContext (FdContext.getEventContext fd_ctx event))
      (true, { s with
                m_fdContexts := s.m_fdContexts.set fd fd_ctx1
                m_pendingEventCount :=
                  (s.m_pendingEventCount + (2 ^ 64 - 1)) % 2 ^ 64 })

/-- Model of `IOManager::stopping` (ioscheduler.cpp:380-385):
`getNextTimer() == ~0ull && m_pendingEventCount == 0 && Scheduler::stopping()`
(the `getNextTimer` call also clears `m_tickled` as a side effect). -/
def IOManager.stopping (s : IOManagerState) (now : Nat) :
    Bool × IOManagerState :=
  let r := getNextTimer s.timerMgr now
  (decide (r.1 = U64MAX) && decide (s.m_pendingEventCount = 0) &&
     Scheduler.stopping s.sched,
   { s with timerMgr := r.2 })

/-- Model of `FdCtx` (fd_manager.h:13-45). -/
structure FdCtx where
  m_isInit : Bool
  m_isSocket : Bool
  m_sysNonblock : Bool
  m_userNonblock : Bool
  m_isClosed : Bool
  m_fd : Int
  m_recvTimeout : Nat
  m_sendTimeout : Nat
deriving Repr, DecidableEq

/-- Model of constructing `FdCtx(fd)` (fd_manager.cpp:21-60): `init()`
inspects the fd with `fstat` — `statOk` models a successful `fstat` and
`isSock` models `S_ISSOCK` on the result.  Sockets are switched to system
non-blocking mode.  Both timeouts default to the `(uint64_t)-1` sentinel. -/
def mkFdCtx (fd : Int) (statOk isSock : Bool) : FdCtx :=
  { m_isInit := statOk
    m_isSocket := statOk && isSock
    m_sysNonblock := statOk && isSock
    m_userNonblock := false
    m_isClosed := false
    m_fd := fd
    m_recvTimeout := U64MAX
    m_sendTimeout := U64MAX }

/-- Model of `FdCtx::getTimeout` (fd_manager.cpp:70-76). -/
def FdCtx.getTimeout (c : FdCtx) (type : Int) : Nat :=
  if type = SO_RCVTIMEO then c.m_recvTimeout else c.m_sendTimeout

/-- Model of the `FdManager` state (fd_manager.h:48-59): the sparse array
of per-fd contexts, with null slots as `none`. -/
structure FdManagerState where
  m_datas : List (Option FdCtx)
deriving Repr, DecidableEq

/-- Model of the `FdManager` constructor (fd_manager.cpp:78-81):
`m_datas.resize(64)`. -/
def FdManager.init : FdManagerState :=
  ⟨List.replicate 64 none⟩

/-- Model of `std::vector<std::shared_ptr<FdCtx>>::resize(n)`: truncate,
or extend with null pointers. -/
def vectorResize (l : List (Option FdCtx)) (n : Nat) : List (Option FdCtx) :=
  l.take n ++ List.replicate (n - l.length) none

/-- The `size_t` value of an `int` fd, as produced by the comparison
`m_datas.size() <= fd` (the fd is converted to `size_t`, two's
complement). -/
def usize (fd : Int) : Nat :=
  (fd % (2 ^ 64 : Int)).toNat

/-- The write-lock path of `FdManager::get` (fd_manager.cpp:108-117):
re-check the size; if still too small, grow with `m_datas.resize(fd * 1.5)`
— `fd * 1.5` is computed in `double` and converted to `size_t` by
truncation, i.e. `3 * fd / 2` rounded down — then unconditionally install
a freshly constructed `FdCtx` at index fd and return it. -/
def FdManager.getWrite (s : FdManagerState) (ufd : Nat) (fd : Int)
    (statOk isSock : Bool) : Option FdCtx × FdManagerState :=
  let l := if s.m_datas.length ≤ ufd then vectorResize s.m_datas (3 * ufd / 2)
           else s.m_datas
  let ctx := mkFdCtx fd statOk isSock
  (some ctx, ⟨l.set ufd (some ctx)⟩)

/-- Model of `FdManager::get` (fd_manager.cpp:84-118).  `fd == -1` returns
null immediately.  Under the read lock: an out-of-range fd without
`auto_create` returns null; an in-range fd returns its slot when the slot
is live or `auto_create` is off.  Every other case falls through to the
write path. -/
def FdManager.get (s : FdManagerState) (fd : Int) (auto_create : Bool)
    (statOk isSock : Bool) : Option FdCtx × FdManagerState :=
  if fd = -1 then (none, s)
  else
    let ufd := usize fd
    if s.m_datas.length ≤ ufd then
      if auto_create = false then (none, s)
      else FdManager.getWrite s ufd fd statOk isSock
    else
      if (s.m_datas.getD ufd none).isSome ∨ auto_create = false then
        (s.m_datas.getD ufd none, s)
      else FdManager.getWrite s ufd fd statOk isSock

/-- Model of a raw syscall invocation inside `do_io`: the returned value
`n` and the `errno` it leaves behind when `n = -1`. -/
structure RawResult where
  n : Int
  err : Int
deriving Repr, DecidableEq

/-- Oracle for one would-block round of `do_io`: whether the `addEvent`
registration succeeded, and the value of `tinfo->cancelled` observed when
the yielded fiber resumes (ETIMEDOUT when the condition timer fired
first). -/
structure WakeInfo where
  addEventOk : Bool
  cancelledAtResume : Int
deriving Repr, DecidableEq

/-- Observable outcome of `do_io`: the return value, the final errno, and
how many times `timer->cancel()` ran. -/
structure DoIOOutcome where
  ret : Int
  errno : Int
  timerCancels : Nat
deriving Repr, DecidableEq

/-- Model of `struct timer_info` (hook.cpp:80-83). -/
structure timer_info where
  cancelled : Int
deriving Repr, DecidableEq

/-- Model of the condition-timer body armed by `do_io` (hook.cpp:147-158):
if the weak witness is gone or the operation is already cancelled, do
nothing; otherwise set `cancelled` to ETIMEDOUT and call
`cancelEvent(fd, event)` — the Bool reports whether that call was made. -/
def doIOTimerCb (alive : Bool) (t : timer_info) : timer_info × Bool :=
  if alive = false ∨ t.cancelled ≠ 0 then (t, false)
  else ({ t with cancelled := ETIMEDOUT }, true)

/-- Model of `OnTimer` (timer.cpp:119-127): the wrapper installed by
`addConditionTimer` runs the inner callback only when the weak condition
can still be locked. -/
def OnTimer (alive : Bool) (t : timer_info) : timer_info × Bool :=
  if alive then doIOTimerCb alive t else (t, false)

/-- The EINTR retry loop of `do_io` (hook.cpp:126-132): run the raw
syscall, and run it again while it fails with EINTR.  Consumes results
from the oracle list; `none` when the oracle is exhausted. -/
def runRaw : List RawResult → Option (RawResult × List RawResult)
  | [] => none
  | r :: rest =>
    if r.n = -1 ∧ r.err = EINTR then runRaw rest else some (r, rest)

/-- The loop of `do_io` from the `retry:` label (hook.cpp:124-197) for a
socket fd in system non-blocking mode.  `timeoutFinite` is the test
`timeout != (uint64_t)-1` deciding whether a condition timer is armed;
`cancels` counts the `timer->cancel()` calls made so far.  Each round:
run the raw call (with EINTR retries); any result other than would-block
is returned as is; on EAGAIN consult the next `WakeInfo` — when `addEvent`
failed, cancel the armed timer (if any) and return -1; otherwise yield,
and on resume cancel the armed timer (if any), then return -1 with errno
ETIMEDOUT when the witness was cancelled with ETIMEDOUT, else go back to
`retry`.  `none` models an exhausted oracle or fuel. -/
def doIOLoop (timeoutFinite : Bool) :
    Nat → Nat → List RawResult → List WakeInfo → Option DoIOOutcome
  | cancels, fuel, raws, wakes =>
    match runRaw raws with
    | none => none
    | some (r, rest) =>
      if r.n = -1 ∧ r.err = EAGAIN then
        match wakes with
        | [] => none
        | w :: wrest =>
          let cancels1 := cancels + (if timeoutFinite then 1 else 0)
          if w.addEventOk = false then
            some { ret := -1, errno := r.err, timerCancels := cancels1 }
          else if w.cancelledAtResume = ETIMEDOUT then
            some { ret := -1, errno := ETIMEDOUT, timerCancels := cancels1 }
          else
            match fuel with
            | 0 => none
            | fuel + 1 => doIOLoop timeoutFinite cancels1 fuel rest wrest
      else
        some { ret := r.n, errno := r.err, timerCancels := cancels }

/-- Model of `do_io` (hook.cpp:90-198): the entry checks, then the retry
loop.  `hook_enable` is the thread's hook switch, `ctx` the result of the
`FdManager` lookup, `timeout_so` the timeout kind (SO_RCVTIMEO or
SO_SNDTIMEO).  Raw-call results and per-round wake outcomes come from
oracle lists; `fuel` bounds the retry loop.  When the hook layer is
bypassed, the raw call is made once and its result returned unchanged. -/
def do_io (hook_enable : Bool) (ctx : Option FdCtx) (timeout_so : Int)
    (raws : List RawResult) (wakes : List WakeInfo) (fuel : Nat) :
    Option DoIOOutcome :=
  if hook_enable = false then
    match raws with
    | [] => none
    | r :: _ => some { ret := r.n, errno := r.err, timerCancels := 0 }
  else
    match ctx with
    | none =>
      match raws with
      | [] => none
      | r :: _ => some { ret := r.n, errno := r.err, timerCancels := 0 }
    | some c =>
      if c.m_isClosed = true then
        some { ret := -1, errno := EBADF, timerCancels := 0 }
      else if c.m_isSocket = false ∨ c.m_userNonblock = true then
        match raws with
        | [] => none
        | r :: _ => some { ret := r.n, errno := r.err, timerCancels := 0 }
      else
        doIOLoop (decide (c.getTimeout timeout_so ≠ U64MAX)) 0 fuel raws wakes

/-- Helper for C5: with rollover in force, a set holding a single recurring
timer makes the collection loop run forever — every iteration pops the
timer, appends its callback and reinserts it, and the guard `rollover`
stays true, so the loop never finishes for any amount of fuel. -/
theorem listExpiredLoop_rollover_recurring_none (now : Nat) :
    ∀ (fuel : Nat) (t : Timer) (cbs : List (Option Nat)),
      t.m_recurring = true → listExpiredLoop now true fuel [t] cbs = none := by
  intro fuel
  induction fuel with
  | zero =>
    intro t cbs _
    simp [listExpiredLoop]
  | succ n ih =>
    intro t cbs hrec
    simp only [listExpiredLoop, Bool.true_or, if_true, hrec, setInsert]
    exact ih { t with m_recurring := true, m_next := now + t.m_ms }
      (cbs ++ [t.m_cb]) rfl

/-- C1: the claim that `m_timers` breaks deadline ties by handle identity is
false on the code.  `Timer::Comparator` (timer.cpp:94-98) compares only
`m_next`, so two distinct timers with equal absolute deadlines are
equivalent for the `std::set`: inserting the second leaves the set
unchanged and the second timer is not a member. -/
theorem c1_equal_deadline_second_timer_dropped :
    setInsert timerLt (setInsert timerLt [] ⟨0, false, 100, 1100, some 1⟩)
        ⟨1, false, 100, 1100, some 2⟩ = [⟨0, false, 100, 1100, some 1⟩] ∧
    (⟨1, false, 100, 1100, some 2⟩ : Timer) ∉
      setInsert timerLt (setInsert timerLt [] ⟨0, false, 100, 1100, some 1⟩)
        ⟨1, false, 100, 1100, some 2⟩ := by
  decide

/-- C5: the claim that `listExpiredCb` terminates is false on the code.
With a clock rollover detected (`now + 1h < m_previouseTime`) and a single
recurring timer in the set, the loop guard `rollover` remains true for the
whole loop, and each iteration reinserts the recurring timer it just
popped, so `listExpiredCb` never returns: it fails for every fuel bound. -/
theorem c5_rollover_recurring_loops_forever :
    ∀ fuel : Nat,
      listExpiredCb ⟨[⟨0, true, 100, 500, some 1⟩], false, 10000000⟩ 0 fuel = none := by
  intro fuel
  have h := listExpiredLoop_rollover_recurring_none 0 fuel
      ⟨0, true, 100, 500, some 1⟩ [] rfl
  simp [listExpiredCb, detectClockRollover, h]

/-- C7: `getNextTimer` clears `m_tickled` (touching nothing else) and
returns the 64-bit all-ones sentinel when the timer set is empty, `0` when
the earliest deadline is at or before `now`, and otherwise the number of
milliseconds from `now` until the earliest deadline. -/
theorem c7_getNextTimer_spec (s : TimerManagerState) (now : Nat) :
    (getNextTimer s now).2 = { s with m_tickled := false } ∧
    (s.m_timers = [] → (getNextTimer s now).1 = U64MAX) ∧
    (∀ t rest, s.m_timers = t :: rest → t.m_next ≤ now →
      (getNextTimer s now).1 = 0) ∧
    (∀ t rest, s.m_timers = t :: rest → now < t.m_next →
      (getNextTimer s now).1 = t.m_next - now) := by
  refine ⟨?_, ?_, ?_, ?_⟩
  · cases h : s.m_timers with
    | nil => simp [getNextTimer, h]
    | cons t rest =>
      by_cases hle : t.m_next ≤ now <;> simp [getNextTimer, h, hle]
  · intro h
    simp [getNextTimer, h]
  · intro t rest h hle
    simp [getNextTimer, h, hle]
  · intro t rest h hlt
    simp [getNextTimer, h, Nat.not_le.mpr hlt]

/-- Witness for C7 at a concrete state: one timer due at 10, current time 3,
so the returned wait is 7 ms and the tickled flag has been cleared. -/
theorem c7_getNextTimer_spec_witness :
    (getNextTimer ⟨[⟨0, false, 7, 10, some 1⟩], true, 0⟩ 3).1 = 7 ∧
    (getNextTimer ⟨[⟨0, false, 7, 10, some 1⟩], true, 0⟩ 3).2.m_tickled = false := by
  have h := c7_getNextTimer_spec ⟨[⟨0, false, 7, 10, some 1⟩], true, 0⟩ 3
  refine ⟨?_, ?_⟩
  · have h2 := h.2.2.2 ⟨0, false, 7, 10, some 1⟩ [] rfl (by decide)
    simpa using h2
  · rw [h.1]

/-- Helper: writing an element back at an index that already holds it
leaves the list unchanged. -/
theorem list_set_self {α : Type} (l : List α) (i : Nat) (x : α)
    (h : l[i]? = some x) : l.set i x = l := by
  induction l generalizing i with
  | nil => simp at h
  | cons a as ih =>
    cases i with
    | zero =>
      simp only [List.getElem?_cons_zero, Option.some.injEq] at h
      simp [h]
    | succ n =>
      simp only [List.getElem?_cons_succ] at h
      simp [ih n h]

/-- Helper: setting a bit then testing it is nonzero, for the event masks
that occur in an `FdContext` (events below 8, bit READ or WRITE). -/
theorem mask_or_and_ne (a b : Nat) (hb : b = READ ∨ b = WRITE) (ha : a < 8) :
    (a ||| b) &&& b ≠ 0 := by
  rcases hb with rfl | rfl <;> interval_cases a <;> decide

/-- Helper: setting a bit that was clear and then clearing it restores the
mask, for the event masks that occur in an `FdContext`. -/
theorem mask_or_clear (a b : Nat) (hb : b = READ ∨ b = WRITE) (ha : a < 8) :
    a &&& b = 0 → (a ||| b) &&& (0xFFFFFFFF ^^^ b) = a := by
  rcases hb with rfl | rfl <;> interval_cases a <;> decide

/-- C3: duplicate registration.  If the fd's context already has the event
bit registered, `addEvent` returns −1 and the whole IOManager state —
registered event mask, both event-context slots, pending-event count — is
exactly what it was before the call. -/
theorem c3_addEvent_duplicate_fails (s : IOManagerState) (fd event : Nat)
    (cb : Option Nat) (epollOk : Bool) (curScheduler curFiber : Option Nat)
    (fd_ctx : FdContext)
    (hev : event = READ ∨ event = WRITE)
    (hctx : s.m_fdContexts[fd]? = some fd_ctx)
    (hdup : fd_ctx.events &&& event ≠ 0) :
    addEvent s fd event cb epollOk curScheduler curFiber = (-1, s) := by
  have hlt : fd < s.m_fdContexts.length := by
    by_contra hge
    rw [List.getElem?_eq_none (Nat.le_of_not_lt hge)] at hctx
    exact Option.noConfusion hctx
  simp [addEvent, hlt, hctx, hdup]

/-- Witness for C3: a one-fd state with READ already registered; a second
READ registration fails and the state is untouched. -/
theorem c3_addEvent_duplicate_fails_witness :
    addEvent
      ⟨⟨[], 0, 0, false⟩, ⟨[], false, 0⟩, 1,
        [⟨⟨some 0, none, some 9⟩, ⟨none, none, none⟩, 0, READ⟩]⟩
      0 READ (some 7) true (some 0) none =
    (-1,
      ⟨⟨[], 0, 0, false⟩, ⟨[], false, 0⟩, 1,
        [⟨⟨some 0, none, some 9⟩, ⟨none, none, none⟩, 0, READ⟩]⟩) := by
  exact c3_addEvent_duplicate_fails _ 0 READ (some 7) true (some 0) none
    ⟨⟨some 0, none, some 9⟩, ⟨none, none, none⟩, 0, READ⟩
    (Or.inl rfl) rfl (by decide)

/-- C4: round trip.  For an fd context present in the table, an event not
currently registered on it and an empty slot for that event (the source
asserts this), `addEvent` succeeds and an immediately following `delEvent`
returns the entire state to what it was before the pair of calls: the
registered mask, the event's (scheduler, fiber, callback) slot, and the
pending-event count are all restored. -/
theorem c4_addEvent_delEvent_roundtrip (s : IOManagerState) (fd event : Nat)
    (cb : Option Nat) (curScheduler curFiber : Option Nat) (fd_ctx : FdContext)
    (hctx : s.m_fdContexts[fd]? = some fd_ctx)
    (hev : event = READ ∨ event = WRITE)
    (hmask : fd_ctx.events < 8)
    (hnotreg : fd_ctx.events &&& event = 0)
    (hslot : FdContext.getEventContext fd_ctx event =
      { scheduler := none, fiber := none, cb := none })
    (hpend : s.m_pendingEventCount < 2 ^ 64) :
    (addEvent s fd event cb true curScheduler curFiber).1 = 0 ∧
    (delEvent (addEvent s fd event cb true curScheduler curFiber).2
        fd event true).1 = true ∧
    (delEvent (addEvent s fd event cb true curScheduler curFiber).2
        fd event true).2 = s := by
  have hlt : fd < s.m_fdContexts.length := by
    by_contra hge
    rw [List.getElem?_eq_none (Nat.le_of_not_lt hge)] at hctx
    exact Option.noConfusion hctx
  obtain ⟨rd, wr, f0, ev⟩ := fd_ctx
  rcases hev with rfl | rfl
  · -- event = READ, registered into the read slot
    have hrd : rd = { scheduler := none, fiber := none, cb := none } := by
      simpa [FdContext.getEventContext] using hslot
    subst hrd
    have hb : ¬((ev ||| READ) &&& READ = 0) :=
      mask_or_and_ne ev READ (Or.inl rfl) hmask
    have hclear : (ev ||| READ) &&& (0xFFFFFFFF ^^^ READ) = ev :=
      mask_or_clear ev READ (Or.inl rfl) hmask hnotreg
    have hadd : addEvent s fd READ cb true curScheduler curFiber =
        (0, { s with
                m_fdContexts := s.m_fdContexts.set fd
                  ⟨mkEventContext cb curScheduler curFiber, wr, f0, ev ||| READ⟩
                m_pendingEventCount := (s.m_pendingEventCount + 1) % 2 ^ 64 }) := by
      simp [addEvent, hlt, hctx, hnotreg, FdContext.setEventContext]
    have hget : (s.m_fdContexts.set fd
        ⟨mkEventContext cb curScheduler curFiber, wr, f0, ev ||| READ⟩)[fd]? =
        some (⟨mkEventContext cb curScheduler curFiber, wr, f0,
          ev ||| READ⟩ : FdContext) := by
      rw [List.getElem?_set_self]
      simpa using hlt
    have h1 : (s.m_fdContexts.set fd
        ⟨mkEventContext cb curScheduler curFiber, wr, f0, ev ||| READ⟩).set fd
          (⟨{ scheduler := none, fiber := none, cb := none }, wr, f0, ev⟩ :
            FdContext) = s.m_fdContexts := by
      rw [List.set_set]
      exact list_set_self _ _ _ hctx
    have h2 : ((s.m_pendingEventCount + 1) % 2 ^ 64 + (2 ^ 64 - 1)) % 2 ^ 64 =
        s.m_pendingEventCount := by omega
    have hdel : delEvent
        { s with
            m_fdContexts := s.m_fdContexts.set fd
              ⟨mkEventContext cb curScheduler curFiber, wr, f0, ev ||| READ⟩
            m_pendingEventCount := (s.m_pendingEventCount + 1) % 2 ^ 64 }
        fd READ true = (true, s) := by
      simp only [delEvent, hget]
      rw [if_neg hb, if_neg (by simp)]
      simp only [hclear, FdContext.setEventContext, FdContext.getEventContext,
        resetEventContext, reduceIte]
      rw [h1, h2]
    exact ⟨by rw [hadd], by rw [hadd]; exact congrArg Prod.fst hdel,
      by rw [hadd]; exact congrArg Prod.snd hdel⟩
  · -- event = WRITE, registered into the write slot
    have hwr : wr = { scheduler := none, fiber := none, cb := none } := by
      simpa [FdContext.getEventContext, READ, WRITE] using hslot
    subst hwr
    have hb : ¬((ev ||| WRITE) &&& WRITE = 0) :=
      mask_or_and_ne ev WRITE (Or.inr rfl) hmask
    have hclear : (ev ||| WRITE) &&& (0xFFFFFFFF ^^^ WRITE) = ev :=
      mask_or_clear ev WRITE (Or.inr rfl) hmask hnotreg
    have hadd : addEvent s fd WRITE cb true curScheduler curFiber =
        (0, { s with
                m_fdContexts := s.m_fdContexts.set fd
                  ⟨rd, mkEventContext cb curScheduler curFiber, f0, ev ||| WRITE⟩
                m_pendingEventCount := (s.m_pendingEventCount + 1) % 2 ^ 64 }) := by
      have hnotreg4 : ev &&& 4 = 0 := hnotreg
      simp [addEvent, hlt, hctx, hnotreg4, FdContext.setEventContext, READ, WRITE]
    have hget : (s.m_fdContexts.set fd
        ⟨rd, mkEventContext cb curScheduler curFiber, f0, ev ||| WRITE⟩)[fd]? =
        some (⟨rd, mkEventContext cb curScheduler curFiber, f0,
          ev ||| WRITE⟩ : FdContext) := by
      rw [List.getElem?_set_self]
      simpa using hlt
    have h1 : (s.m_fdContexts.set fd
        ⟨rd, mkEventContext cb curScheduler curFiber, f0, ev ||| WRITE⟩).set fd
          (⟨rd, { scheduler := none, fiber := none, cb := none }, f0, ev⟩ :
            FdContext) = s.m_fdContexts := by
      rw [List.set_set]
      exact list_set_self _ _ _ hctx
    have h2 : ((s.m_pendingEventCount + 1) % 2 ^ 64 + (2 ^ 64 - 1)) % 2 ^ 64 =
        s.m_pendingEventCount := by omega
    have hdel : delEvent
        { s with
            m_fdContexts := s.m_fdContexts.set fd
              ⟨rd, mkEventContext cb curScheduler curFiber, f0, ev ||| WRITE⟩
            m_pendingEventCount := (s.m_pendingEventCount + 1) % 2 ^ 64 }
        fd WRITE true = (true, s) := by
      simp only [delEvent, hget]
      rw [if_neg hb, if_neg (by simp)]
      simp only [hclear, FdContext.setEventContext, FdContext.getEventContext,
        resetEventContext, reduceIte]
      rw [if_neg (show ¬(WRITE = READ) by decide)]
      rw [h1, h2]
    exact ⟨by rw [hadd], by rw [hadd]; exact congrArg Prod.fst hdel,
      by rw [hadd]; exact congrArg Prod.snd hdel⟩

/-- Witness for C4 at a concrete state: one fd context with nothing
registered; registering READ with a callback and deleting it restores the
exact initial state. -/
theorem c4_addEvent_delEvent_roundtrip_witness :
    (addEvent
        ⟨⟨[], 0, 0, false⟩, ⟨[], false, 0⟩, 3,
          [⟨⟨none, none, none⟩, ⟨none, none, none⟩, 0, 0⟩]⟩
        0 READ (some 7) true (some 0) none).1 = 0 ∧
    (delEvent
        (addEvent
          ⟨⟨[], 0, 0, false⟩, ⟨[], false, 0⟩, 3,
            [⟨⟨none, none, none⟩, ⟨none, none, none⟩, 0, 0⟩]⟩
          0 READ (some 7) true (some 0) none).2 0 READ true).2 =
      ⟨⟨[], 0, 0, false⟩, ⟨[], false, 0⟩, 3,
        [⟨⟨none, none, none⟩, ⟨none, none, none⟩, 0, 0⟩]⟩ := by
  have h := c4_addEvent_delEvent_roundtrip
    ⟨⟨[], 0, 0, false⟩, ⟨[], false, 0⟩, 3,
      [⟨⟨none, none, none⟩, ⟨none, none, none⟩, 0, 0⟩]⟩
    0 READ (some 7) (some 0) none
    ⟨⟨none, none, none⟩, ⟨none, none, none⟩, 0, 0⟩
    rfl (Or.inl rfl) (by decide) (by decide) rfl (by decide)
  exact ⟨h.1, h.2.2⟩

/-- C6: `Scheduler::stopping` is true exactly when the stopping flag is
set, the task queue is empty and the active-thread count is zero;
`IOManager::stopping` is true exactly when, in addition, the pending-event
count is zero and the timer set is empty.  The hypothesis bounds every
deadline so that the millisecond distance to a live timer can never
collide with the 64-bit sentinel. -/
theorem c6_stopping_spec (s : IOManagerState) (now : Nat)
    (hbound : ∀ t ∈ s.timerMgr.m_timers, t.m_next < now + U64MAX) :
    (Scheduler.stopping s.sched = true ↔
      s.sched.m_stopping = true ∧ s.sched.m_tasks = [] ∧
        s.sched.m_activeThreadCount = 0) ∧
    ((IOManager.stopping s now).1 = true ↔
      (s.sched.m_stopping = true ∧ s.sched.m_tasks = [] ∧
        s.sched.m_activeThreadCount = 0) ∧
      s.m_pendingEventCount = 0 ∧ s.timerMgr.m_timers = []) := by
  have hsched : Scheduler.stopping s.sched = true ↔
      s.sched.m_stopping = true ∧ s.sched.m_tasks = [] ∧
        s.sched.m_activeThreadCount = 0 := by
    simp [Scheduler.stopping, List.isEmpty_iff, and_assoc]
  refine ⟨hsched, ?_⟩
  cases htm : s.timerMgr.m_timers with
  | nil =>
    simp [IOManager.stopping, getNextTimer, htm, hsched]
    tauto
  | cons t rest =>
    have hmem : t ∈ s.timerMgr.m_timers := by
      rw [htm]
      exact List.mem_cons_self t rest
    have hb := hbound t hmem
    have hne : (getNextTimer s.timerMgr now).1 ≠ U64MAX := by
      simp only [getNextTimer, htm]
      by_cases hle : t.m_next ≤ now
      · simp only [hle, if_true]
        decide
      · simp only [hle, if_false]
        omega
    constructor
    · intro h
      simp only [IOManager.stopping, Bool.and_eq_true, decide_eq_true_eq] at h
      exact absurd h.1.1 hne
    · rintro ⟨-, -, hnil⟩
      exact absurd hnil (List.cons_ne_nil t rest)

/-- Witness for C6: a fully drained reactor state (flag set, no tasks, no
active threads, no pending events, no timers) is reported as stopping. -/
theorem c6_stopping_spec_witness :
    (IOManager.stopping ⟨⟨[], 0, 0, true⟩, ⟨[], false, 0⟩, 0, []⟩ 5).1 = true := by
  have h := c6_stopping_spec ⟨⟨[], 0, 0, true⟩, ⟨[], false, 0⟩, 0, []⟩ 5 (by simp)
  exact h.2.mpr ⟨⟨rfl, rfl, rfl⟩, rfl, rfl⟩

/-- C10: `FdManager::get` called with fd = −1 returns a null handle for
either value of `auto_create` and leaves the context array unchanged. -/
theorem c10_get_minus_one (s : FdManagerState)
    (auto_create statOk isSock : Bool) :
    FdManager.get s (-1) auto_create statOk isSock = (none, s) := by
  simp [FdManager.get]

/-- C8 counterexample: at fd = 65 (array at its initial size 64) the array
grows to 97, the truncation of 65 × 1.5, not to the ceiling 98 = ⌈65 × 1.5⌉
the claim states. -/
theorem c8_growth_is_floor_not_ceiling :
    (FdManager.get FdManager.init 65 true true true).2.m_datas.length = 97 ∧
    (3 * 65 + 1) / 2 = 98 := by
  constructor
  · decide
  · decide

/-- C8 (amended): the fd-context array starts with capacity 64; for every
fd at or beyond the current size, `get(fd, auto_create = true)` grows the
array to the truncation of fd × 1.5 (not the ceiling) and stores and
returns a freshly created context at index fd; since the array never
shrinks below its initial 64 slots, the new capacity is strictly greater
than fd. -/
theorem c8_growth_floor (s : FdManagerState) (fd : Nat)
    (statOk isSock : Bool)
    (h64 : 64 ≤ s.m_datas.length) (hle : s.m_datas.length ≤ fd)
    (hfd : fd < 2 ^ 31) :
    FdManager.init.m_datas.length = 64 ∧
    (FdManager.get s (fd : Int) true statOk isSock).2.m_datas.length =
      3 * fd / 2 ∧
    (FdManager.get s (fd : Int) true statOk isSock).1 =
      some (mkFdCtx (fd : Int) statOk isSock) ∧
    (FdManager.get s (fd : Int) true statOk isSock).2.m_datas[fd]? =
      some (some (mkFdCtx (fd : Int) statOk isSock)) ∧
    fd < 3 * fd / 2 := by
  have husize : usize (fd : Int) = fd := by
    have h2 : fd < 2 ^ 64 := lt_of_lt_of_le hfd (by norm_num)
    simp only [usize]
    omega
  have hne : ((fd : Int) = -1) = False := by
    simp only [eq_iff_iff, iff_false]
    omega
  have hfdlt : fd < 3 * fd / 2 := by omega
  have hlen : (vectorResize s.m_datas (3 * fd / 2)).length = 3 * fd / 2 := by
    simp only [vectorResize, List.length_append, List.length_take,
      List.length_replicate]
    omega
  have hget : FdManager.get s (fd : Int) true statOk isSock =
      (some (mkFdCtx (fd : Int) statOk isSock),
       ⟨(vectorResize s.m_datas (3 * fd / 2)).set fd
          (some (mkFdCtx (fd : Int) statOk isSock))⟩) := by
    simp [FdManager.get, FdManager.getWrite, hne, husize, hle]
  refine ⟨rfl, ?_, ?_, ?_, hfdlt⟩
  · rw [hget]
    simp [List.length_set, hlen]
  · rw [hget]
  · rw [hget]
    have : fd < ((vectorResize s.m_datas (3 * fd / 2)).set fd
        (some (mkFdCtx (fd : Int) statOk isSock))).length := by
      simp [List.length_set, hlen]
      omega
    rw [List.getElem?_set_self]
    simp [hlen]
    omega

/-- Witness for C8 at fd = 64 from the initial state: the array grows to
96 slots, strictly more than 64. -/
theorem c8_growth_floor_witness :
    (FdManager.get FdManager.init (64 : Int) true true true).2.m_datas.length
      = 96 ∧ 64 < 96 := by
  have h := c8_growth_floor FdManager.init 64 true true (by decide) (by decide)
    (by decide)
  exact ⟨h.2.1.trans (by decide), by decide⟩

/-- C9 counterexample: a fiber constructed with the default stack size gets
a 128000-byte stack, and 128000 is not 128 KiB = 131072. -/
theorem c9_default_stack_not_131072 :
    (mkChildFiber 0 0 true 1).m_stacksize = 128000 ∧
    (128000 : Nat) ≠ 131072 := by
  decide

/-- C9 (amended): every fiber constructed without an explicit stack size
(stacksize argument 0, which is the declared default of the constructor)
gets an allocated stack region of 128000 bytes. -/
theorem c9_default_stack_size (cb : Nat) (run_in_scheduler : Bool)
    (id : Nat) :
    (mkChildFiber cb 0 run_in_scheduler id).m_stacksize = 128000 := by
  rfl

/-- C2: in `do_io`, when the raw call returns would-block (EAGAIN) and the
fd context carries a finite timeout: (i) the armed condition timer's body
sets the witness's cancelled field to ETIMEDOUT and calls
`cancel_event(fd, event)`; (ii) after the yielded fiber resumes the armed
timer is cancelled (the cancel count grows by one), and then: if the
witness reports ETIMEDOUT, `do_io` returns −1 with errno ETIMEDOUT;
otherwise it goes back to retrying the raw call on the remaining oracle. -/
theorem c2_do_io_timeout_path (c : FdCtx) (timeout_so : Int)
    (raws rest : List RawResult) (r : RawResult)
    (wakes wrest : List WakeInfo) (w : WakeInfo) (fuel : Nat)
    (hclosed : c.m_isClosed = false) (hsock : c.m_isSocket = true)
    (hunb : c.m_userNonblock = false)
    (hfin : c.getTimeout timeout_so ≠ U64MAX)
    (hraw : runRaw raws = some (r, rest))
    (hn : r.n = -1) (herr : r.err = EAGAIN)
    (hwakes : wakes = w :: wrest) (hok : w.addEventOk = true) :
    (∀ t : timer_info, t.cancelled = 0 →
      doIOTimerCb true t = ({ cancelled := ETIMEDOUT }, true)) ∧
    (w.cancelledAtResume = ETIMEDOUT →
      do_io true (some c) timeout_so raws wakes (fuel + 1) =
        some { ret := -1, errno := ETIMEDOUT, timerCancels := 1 }) ∧
    (w.cancelledAtResume ≠ ETIMEDOUT →
      do_io true (some c) timeout_so raws wakes (fuel + 1) =
        doIOLoop true 1 fuel rest wrest) := by
  have hdo : do_io true (some c) timeout_so raws wakes (fuel + 1) =
      doIOLoop true 0 (fuel + 1) raws wakes := by
    simp [do_io, hclosed, hsock, hunb, hfin]
  refine ⟨?_, ?_, ?_⟩
  · intro t ht
    simp [doIOTimerCb, ht]
  · intro hto
    rw [hdo, doIOLoop, hraw]
    simp [hn, herr, hwakes, hok, hto]
  · intro hto
    rw [hdo, doIOLoop, hraw]
    simp [hn, herr, hwakes, hok, hto]

/-- Witness for C2: one EAGAIN raw result, a 50 ms receive timeout, and a
wake that reports the timeout: `do_io` returns −1 with errno ETIMEDOUT
after cancelling the timer once; and the timer body on a live, untouched
witness marks it ETIMEDOUT and cancels the event. -/
theorem c2_do_io_timeout_path_witness :
    do_io true (some ⟨true, true, true, false, false, 5, 50, U64MAX⟩)
        SO_RCVTIMEO [⟨-1, EAGAIN⟩] [⟨true, ETIMEDOUT⟩] 1 =
      some { ret := -1, errno := ETIMEDOUT, timerCancels := 1 } ∧
    doIOTimerCb true ⟨0⟩ = ({ cancelled := ETIMEDOUT }, true) := by
  have h := c2_do_io_timeout_path
    ⟨true, true, true, false, false, 5, 50, U64MAX⟩ SO_RCVTIMEO
    [⟨-1, EAGAIN⟩] [] ⟨-1, EAGAIN⟩ [⟨true, ETIMEDOUT⟩] [] ⟨true, ETIMEDOUT⟩ 0
    rfl rfl rfl (by decide) (by decide) rfl rfl rfl rfl
  exact ⟨h.2.1 rfl, h.1 ⟨0⟩ rfl⟩

end sylar
